import Mathlib

/-!
Verification development for the bvm JVM class-file decoder.

The definitions below are a shallow embedding of the Rust sources:
src/class/mod.rs, src/class/constant_pool.rs and src/class/attributes.rs.
Readers over a byte stream are modelled as state-passing functions on a
list of naturals (one per wire byte); fallible reads return an Except
value whose error constructors correspond one-to-one to the error
messages constructed in the source (plus an explicit constructor for a
Rust panic and one for exhausted recursion fuel).
-/

namespace Bvm

/-- Wire bytes, one natural number per byte (on the wire every element is
below 256). -/
abbrev Bytes := List Nat

/-- Errors of the decoder.  Each constructor corresponds to one
ClassLoadingError message constructed in the source; indexPanicked stands
for a Rust panic while indexing the constant-pool vector, and outOfFuel
for exhausted recursion fuel of the embedding (unreachable when enough
fuel is supplied). -/
inductive Err where
  /-- Truncated input: a read_u8/u16/u32/read_exact hit end of stream. -/
  | eof
  /-- Message: Magic header is not matching. -/
  | badMagic
  /-- Message: Cannot match constant tag. -/
  | unknownConstantTag
  /-- Message: Invalid class access flags. -/
  | invalidClassAccessFlags
  /-- Message: Invalid field access flags. -/
  | invalidFieldAccessFlags
  /-- Message: Invalid method access flags. -/
  | invalidMethodAccessFlags
  /-- Message: Invalid inner class access flags. -/
  | invalidInnerClassAccessFlags
  /-- Message: Referenced attribute name should be an UTF-8 constant. -/
  | attributeNameNotUtf8
  /-- Message: Reserved frame type t. -/
  | reservedFrameType (t : Nat)
  /-- Message: Unknown frame type t. -/
  | unknownFrameType (t : Nat)
  /-- Message: Cannot determine verification type. -/
  | unknownVerificationType
  /-- Message: Unknown tag for annotation element value. -/
  | unknownElementValueTag
  /-- Message: Data is still present after reading class file. -/
  | trailingData
  /-- Rust panic raised by the Index implementation of ConstantPool
  (integer underflow or vector index out of bounds). -/
  | indexPanicked
  /-- Recursion fuel of the embedding ran out. -/
  | outOfFuel
  deriving DecidableEq

/-- A reader: consumes a prefix of the byte list and either fails or
returns a value together with the unread remainder. -/
def P (α : Type) : Type := Bytes → Except Err (α × Bytes)

instance : Monad P where
  pure a := fun bs => .ok (a, bs)
  bind p f := fun bs =>
    match p bs with
    | .error e => .error e
    | .ok (a, rest) => f a rest

/-- A reader that fails outright with the given error. -/
def pfail (e : Err) : P α := fun _ => .error e

theorem bind_apply (p : P α) (f : α → P β) (bs : Bytes) :
    (p >>= f) bs
      = match p bs with
        | .error e => .error e
        | .ok (a, rest) => f a rest := rfl

theorem pure_apply (a : α) (bs : Bytes) : (pure a : P α) bs = .ok (a, bs) := rfl

theorem pfail_apply (e : Err) (bs : Bytes) : (pfail e : P α) bs = .error e := rfl

/-- read_u8: one byte. -/
def readU8 : P Nat := fun bs =>
  match bs with
  | [] => .error .eof
  | b :: rest => .ok (b, rest)

/-- read_u16 big-endian. -/
def readU16 : P Nat := do
  let hi ← readU8
  let lo ← readU8
  pure (hi * 256 + lo)

/-- read_u32 big-endian. -/
def readU32 : P Nat := do
  let hi ← readU16
  let lo ← readU16
  pure (hi * 65536 + lo)

/-- read_i64/read_f64 big-endian, modelled as the raw 64-bit word. -/
def readU64 : P Nat := do
  let hi ← readU32
  let lo ← readU32
  pure (hi * 4294967296 + lo)

/-- read_exact n: capture exactly n raw bytes, or fail at end of stream. -/
def readExact (n : Nat) : P Bytes := fun bs =>
  if n ≤ bs.length then .ok (bs.take n, bs.drop n) else .error .eof

/-- Read n elements in sequence (the read_all loop with a fixed count and
no skip). -/
def readN (p : P α) : Nat → P (List α)
  | 0 => pure []
  | n + 1 => do
    let a ← p
    let rest ← readN p n
    pure (a :: rest)

/-- ReadAll::read_all: a u16 count followed by that many elements. -/
def readCounted (p : P α) : P (List α) := do
  let count ← readU16
  readN p count

/-- The overridden read_count used by parameter annotations: a u8 count
followed by that many elements. -/
def readCounted8 (p : P α) : P (List α) := do
  let count ← readU8
  readN p count

/-- Big-endian two-byte encoding of a u16 value. -/
def encU16 (n : Nat) : Bytes := [n / 256, n % 256]

/-- Big-endian four-byte encoding of a u32 value. -/
def encU32 (n : Nat) : Bytes := [n / 16777216, n / 65536 % 256, n / 256 % 256, n % 256]

theorem readU16_enc (n : Nat) (bs : Bytes) :
    readU16 (encU16 n ++ bs) = .ok (n, bs) := by
  simp only [readU16, encU16, bind_apply, readU8, List.cons_append, List.nil_append,
    pure_apply]
  congr 1
  congr 1
  omega

theorem readU32_enc (n : Nat) (bs : Bytes) :
    readU32 (encU32 n ++ bs) = .ok (n, bs) := by
  simp only [readU32, encU32, bind_apply, readU16, readU8, List.cons_append,
    List.nil_append, pure_apply]
  congr 1
  congr 1
  omega

-- ============================================================================
-- CONSTANT POOL (src/class/constant_pool.rs)
-- ============================================================================

/-- The Constant enum.  Numeric payloads of Integer/Float/Long/Double are
modelled as the raw big-endian words read from the wire. -/
inductive Constant where
  | utf8 (bytes : Bytes)
  | integer (value : Nat)
  | float (value : Nat)
  | long (value : Nat)
  | double (value : Nat)
  | classRef (nameIndex : Nat)
  | stringRef (stringIndex : Nat)
  | fieldRef (classIndex nameAndTypeIndex : Nat)
  | methodRef (classIndex nameAndTypeIndex : Nat)
  | interfaceMethodRef (classIndex nameAndTypeIndex : Nat)
  | nameAndType (nameIndex descriptorIndex : Nat)
  | methodHandle (referenceKind referenceIndex : Nat)
  | methodType (descriptorIndex : Nat)
  | invokeDynamic (bootstrapMethodAttrIndex nameAndTypeIndex : Nat)
  | moduleRef (nameIndex : Nat)
  | packageRef (nameIndex : Nat)
  deriving DecidableEq

/-- ReadOne for Constant: tag dispatch per src/class/constant_pool.rs. -/
def Constant.readOne : P Constant := do
  let tag ← readU8
  match tag with
  | 1 => do
    let length ← readU16
    let bytes ← readExact length
    pure (Constant.utf8 bytes)
  | 3 => do let v ← readU32; pure (Constant.integer v)
  | 4 => do let v ← readU32; pure (Constant.float v)
  | 5 => do let v ← readU64; pure (Constant.long v)
  | 6 => do let v ← readU64; pure (Constant.double v)
  | 7 => do let i ← readU16; pure (Constant.classRef i)
  | 8 => do let i ← readU16; pure (Constant.stringRef i)
  | 9 => do
    let c ← readU16
    let n ← readU16
    pure (Constant.fieldRef c n)
  | 10 => do
    let c ← readU16
    let n ← readU16
    pure (Constant.methodRef c n)
  | 11 => do
    let c ← readU16
    let n ← readU16
    pure (Constant.interfaceMethodRef c n)
  | 12 => do
    let n ← readU16
    let d ← readU16
    pure (Constant.nameAndType n d)
  | 15 => do
    let k ← readU8
    let i ← readU16
    pure (Constant.methodHandle k i)
  | 16 => do let d ← readU16; pure (Constant.methodType d)
  | 18 => do
    let b ← readU16
    let n ← readU16
    pure (Constant.invokeDynamic b n)
  | 19 => do let i ← readU16; pure (Constant.moduleRef i)
  | 20 => do let i ← readU16; pure (Constant.packageRef i)
  | _ => pfail .unknownConstantTag

/-- ReadAll::skip_amount for Constant: Long and Double consume one extra
logical slot. -/
def Constant.skipAmount : Constant → Nat
  | Constant.long _ => 1
  | Constant.double _ => 1
  | _ => 0

/-- Whether a constant is a Long or a Double (the double-slot kinds). -/
def Constant.isLongOrDouble : Constant → Bool
  | Constant.long _ => true
  | Constant.double _ => true
  | _ => false

/-- The read_all_from loop specialised to constants: starting at logical
index one, while the index is below the declared count read one constant
and advance by one plus its skip amount.  The fuel argument makes the
recursion structural; the caller supplies fuel equal to the declared
count, which is enough because every iteration advances the index. -/
def readConstantsLoop (count : Nat) : Nat → Nat → P (List Constant)
  | 0, idx => fun bs =>
    if idx < count then .error .outOfFuel else .ok ([], bs)
  | fuel + 1, idx => fun bs =>
    if idx < count then
      (do
        let c ← Constant.readOne
        let rest ← readConstantsLoop count fuel (idx + 1 + c.skipAmount)
        pure (c :: rest)) bs
    else .ok ([], bs)

/-- ConstantPool::assemble_skip_table, as a recursion carrying the running
physical position. -/
def assembleSkipTableFrom (base : Nat) : List Constant → List Nat
  | [] => []
  | c :: rest =>
    if c.isLongOrDouble then base :: assembleSkipTableFrom (base + 1) rest
    else assembleSkipTableFrom (base + 1) rest

/-- ConstantPool::assemble_skip_table: the physical positions of the Long
and Double entries among the stored constants. -/
def assembleSkipTable (constants : List Constant) : List Nat :=
  assembleSkipTableFrom 0 constants

/-- The ConstantPool struct. -/
structure ConstantPool where
  constants : List Constant
  skipTable : List Nat
  deriving DecidableEq

/-- ReadOne for ConstantPool: read the u16 count, run the constants loop
from logical index one, and assemble the skip table. -/
def ConstantPool.readOne : P ConstantPool := do
  let count ← readU16
  let constants ← readConstantsLoop count count 1
  pure { constants := constants, skipTable := assembleSkipTable constants }

/-- Index of usize for ConstantPool, including its Rust panics: the result
is none exactly when the Rust code would panic (index zero underflows,
the skip subtraction underflows, or the final vector access is out of
bounds).  Note the source sums the matching skip-table entries. -/
def ConstantPool.index (pool : ConstantPool) (i : Nat) : Option Constant :=
  if i = 0 then none
  else
    let vecIndex := i - 1
    let skips := (pool.skipTable.filter (fun x => x < vecIndex)).sum
    if vecIndex < skips then none
    else pool.constants[vecIndex - skips]?

/-- The logical length of a stored pool: the number of stored constants
plus one extra slot for each stored Long or Double. -/
def logicalLen (cs : List Constant) : Nat :=
  cs.length + (cs.filter (fun c => c.isLongOrDouble)).length

theorem logicalLen_nil : logicalLen [] = 0 := rfl

theorem logicalLen_cons (c : Constant) (cs : List Constant) :
    logicalLen (c :: cs) = 1 + c.skipAmount + logicalLen cs := by
  cases c <;> simp [logicalLen, Constant.isLongOrDouble, Constant.skipAmount] <;> omega

/-- The one logical constant addressed by a 1-based logical index, per the
layout in which every stored constant occupies one slot and each Long or
Double occupies two.  Used to express what the specification says the
indexing operation returns. -/
def logicalSlotConstant : List Constant → Nat → Option Constant
  | [], _ => none
  | c :: rest, i =>
    if i = 0 then none
    else if i ≤ 1 + c.skipAmount then some c
    else logicalSlotConstant rest (i - (1 + c.skipAmount))

theorem skipAmount_le_one (c : Constant) : c.skipAmount ≤ 1 := by
  cases c <;> simp [Constant.skipAmount]

/-- Loop invariant of the constant-pool read loop: on success the final
logical index (start plus logical length of what was read) lands on the
declared count or overshoots it by exactly one. -/
theorem readConstantsLoop_logicalLen (count : Nat) :
    ∀ fuel idx bs cs rest, idx ≤ count + 1 →
      readConstantsLoop count fuel idx bs = .ok (cs, rest) →
      idx + logicalLen cs = count ∨ idx + logicalLen cs = count + 1 := by
  intro fuel
  induction fuel with
  | zero =>
    intro idx bs cs rest hle h
    by_cases hidx : idx < count
    · simp [readConstantsLoop, hidx] at h
    · simp [readConstantsLoop, hidx] at h
      obtain ⟨⟨rfl, _⟩, _⟩ := h
      simp only [logicalLen_nil]
      omega
  | succ fuel ih =>
    intro idx bs cs rest hle h
    by_cases hidx : idx < count
    · cases hc : Constant.readOne bs with
      | error e => simp [readConstantsLoop, if_pos hidx, bind_apply, hc] at h
      | ok val =>
        obtain ⟨c, bs1⟩ := val
        cases hl : readConstantsLoop count fuel (idx + 1 + c.skipAmount) bs1 with
        | error e =>
          simp [readConstantsLoop, if_pos hidx, bind_apply, hc, hl] at h
        | ok val1 =>
          obtain ⟨cs1, rest1⟩ := val1
          simp only [readConstantsLoop, if_pos hidx, bind_apply, hc, hl, pure_apply] at h
          injection h with h
          injection h with h1 h2
          subst h1
          have hskip := skipAmount_le_one c
          have := ih (idx + 1 + c.skipAmount) bs1 cs1 rest1 (by omega) hl
          rw [logicalLen_cons]
          omega
    · simp [readConstantsLoop, hidx] at h
      obtain ⟨⟨rfl, _⟩, _⟩ := h
      simp only [logicalLen_nil]
      omega

/-- Every entry produced by the skip-table recursion is at least the
running base position. -/
theorem assembleSkipTableFrom_ge (cs : List Constant) :
    ∀ base x, x ∈ assembleSkipTableFrom base cs → base ≤ x := by
  induction cs with
  | nil => intro base x h; simp [assembleSkipTableFrom] at h
  | cons c rest ih =>
    intro base x h
    simp only [assembleSkipTableFrom] at h
    by_cases hc : c.isLongOrDouble
    · rw [if_pos hc] at h
      rcases List.mem_cons.mp h with rfl | h
      · exact Nat.le_refl x
      · exact Nat.le_of_succ_le (ih (base + 1) x h)
    · rw [if_neg hc] at h
      exact Nat.le_of_succ_le (ih (base + 1) x h)

/-- Membership in the skip table characterises exactly the positions of
Long and Double entries, shifted by the running base. -/
theorem mem_assembleSkipTableFrom (cs : List Constant) :
    ∀ base x, x ∈ assembleSkipTableFrom base cs ↔
      ∃ j, ∃ hj : j < cs.length, x = base + j ∧ (cs.get ⟨j, hj⟩).isLongOrDouble = true := by
  induction cs with
  | nil => intro base x; simp [assembleSkipTableFrom]
  | cons c rest ih =>
    intro base x
    simp only [assembleSkipTableFrom]
    constructor
    · intro h
      by_cases hc : c.isLongOrDouble
      · rw [if_pos hc] at h
        rcases List.mem_cons.mp h with rfl | h
        · exact ⟨0, by simp, by simp, by simpa using hc⟩
        · obtain ⟨j, hj, rfl, hld⟩ := (ih (base + 1) x).mp h
          exact ⟨j + 1, by simpa using Nat.succ_lt_succ hj, by omega, by simpa using hld⟩
      · rw [if_neg hc] at h
        obtain ⟨j, hj, rfl, hld⟩ := (ih (base + 1) x).mp h
        exact ⟨j + 1, by simpa using Nat.succ_lt_succ hj, by omega, by simpa using hld⟩
    · rintro ⟨j, hj, rfl, hld⟩
      cases j with
      | zero =>
        simp only [List.get] at hld
        simp [hld]
      | succ j =>
        have hmem : base + 1 + j ∈ assembleSkipTableFrom (base + 1) rest :=
          (ih (base + 1) (base + 1 + j)).mpr
            ⟨j, by simpa using Nat.lt_of_succ_lt_succ hj, rfl, by simpa using hld⟩
        have hx : base + (j + 1) = base + 1 + j := by omega
        by_cases hc : c.isLongOrDouble
        · rw [if_pos hc]
          exact List.mem_cons.mpr (Or.inr (hx ▸ hmem))
        · rw [if_neg hc]
          exact hx ▸ hmem

/-- The skip table is strictly increasing. -/
theorem assembleSkipTableFrom_pairwise (cs : List Constant) :
    ∀ base, List.Pairwise (· < ·) (assembleSkipTableFrom base cs) := by
  induction cs with
  | nil => intro base; simp [assembleSkipTableFrom]
  | cons c rest ih =>
    intro base
    simp only [assembleSkipTableFrom]
    by_cases hc : c.isLongOrDouble
    · rw [if_pos hc]
      refine List.Pairwise.cons ?_ (ih (base + 1))
      intro y hy
      exact Nat.lt_of_lt_of_le (Nat.lt_succ_self base) (assembleSkipTableFrom_ge rest (base + 1) y hy)
    · rw [if_neg hc]
      exact ih (base + 1)

/-- Destructuring a successful ConstantPool.readOne into its count and
its loop result. -/
theorem ConstantPool.readOne_ok (bs : Bytes) (pool : ConstantPool) (rest : Bytes)
    (h : ConstantPool.readOne bs = .ok (pool, rest)) :
    ∃ count bs1, readU16 bs = .ok (count, bs1) ∧
      readConstantsLoop count count 1 bs1 = .ok (pool.constants, rest) ∧
      pool.skipTable = assembleSkipTable pool.constants := by
  unfold ConstantPool.readOne at h
  cases hc : readU16 bs with
  | error e => simp [bind_apply, hc] at h
  | ok val =>
    obtain ⟨count, bs1⟩ := val
    cases hl : readConstantsLoop count count 1 bs1 with
    | error e => simp [bind_apply, hc, hl] at h
    | ok val1 =>
      obtain ⟨cs, rest1⟩ := val1
      simp only [bind_apply, hc, hl, pure_apply] at h
      injection h with h
      injection h with h1 h2
      subst h2
      exact ⟨count, bs1, rfl, by rw [← h1]; exact hl, by rw [← h1]⟩

-- ============================================================================
-- CLAIM C1
-- ============================================================================

/-- Concrete decoded pool for claim C1: stored constants Utf8 A, Utf8 B,
Long 1, Utf8 C; the Long sits at physical position 2 and occupies logical
slots 3 and 4, so logical slot 5 holds Utf8 C. -/
def c1Pool : ConstantPool :=
  { constants := [.utf8 [65], .utf8 [66], .long 1, .utf8 [67]], skipTable := [2] }

/-- Claim C1 (code-bug evidence).  The pool with declared count 6 and
constants Utf8 A, Utf8 B, Long 1, Utf8 C decodes successfully; logical
index 5 addresses the first slot of Utf8 C, the number of Long or Double
entries whose logical slots lie strictly below 5 is one, and the physical
entry at position (5 - 1) - 1 = 3 is Utf8 C; yet the indexing operation
returns the Long stored at physical position 2, because the source
subtracts the sum of the matching skip-table entries instead of their
count. -/
theorem C1_pool_index_divergence :
    ConstantPool.readOne
        [0, 6, 1, 0, 1, 65, 1, 0, 1, 66, 5, 0, 0, 0, 0, 0, 0, 0, 1, 1, 0, 1, 67]
      = .ok (c1Pool, []) ∧
    logicalSlotConstant c1Pool.constants 5 = some (.utf8 [67]) ∧
    c1Pool.constants[(5 - 1) - 1]? = some (.utf8 [67]) ∧
    c1Pool.index 5 = some (.long 1) := by
  exact ⟨rfl, rfl, rfl, rfl⟩

-- ============================================================================
-- CLAIM C2
-- ============================================================================

/-- Concrete decoded pool for claim C2: a Long occupying logical slots 1
and 2, followed by Utf8 B at logical slot 3. -/
def c2Pool : ConstantPool :=
  { constants := [.long 1, .utf8 [66]], skipTable := [0] }

/-- Claim C2 (code-bug evidence).  In the decoded pool whose first
constant is a Long, logical index 2 is the second slot of that Long, yet
the indexing operation succeeds and returns the constant stored after the
Long instead of failing with an invalid-pool-index error; the indexing
operation has no error path at all. -/
theorem C2_second_slot_deref_succeeds :
    ConstantPool.readOne [0, 4, 5, 0, 0, 0, 0, 0, 0, 0, 1, 1, 0, 1, 66]
      = .ok (c2Pool, []) ∧
    logicalSlotConstant c2Pool.constants 2 = some (.long 1) ∧
    c2Pool.index 2 = some (.utf8 [66]) := by
  exact ⟨rfl, rfl, rfl⟩

-- ============================================================================
-- CLAIM C6
-- ============================================================================

/-- Claim C6, amended: after a successful constant-pool decode with
declared count n, the logical length of the pool is n - 1, or n when the
loop overshoots the declared count by the second slot of a final Long or
Double (or when n = 0). -/
theorem C6_logical_length (n : Nat) (body : Bytes) (pool : ConstantPool) (rest : Bytes)
    (h : ConstantPool.readOne (encU16 n ++ body) = .ok (pool, rest)) :
    logicalLen pool.constants = n - 1 ∨ logicalLen pool.constants = n := by
  obtain ⟨count, bs1, hc, hl, _⟩ := ConstantPool.readOne_ok _ _ _ h
  rw [readU16_enc] at hc
  injection hc with hc
  injection hc with hc1 hc2
  subst hc1 hc2
  have := readConstantsLoop_logicalLen n n 1 body pool.constants rest (by omega) hl
  omega

/-- Witness for C6 at the minimal pool with declared count 2 and one Utf8
constant. -/
theorem C6_logical_length_witness :
    logicalLen [Constant.utf8 [65]] = 2 - 1 ∨ logicalLen [Constant.utf8 [65]] = 2 :=
  C6_logical_length 2 [1, 0, 1, 65]
    { constants := [.utf8 [65]], skipTable := [] } [] rfl

/-- Counterexample for C6 as stated: a pool with declared count 2 whose
single stored constant is a Long decodes successfully, but its logical
length is 2, not 2 - 1 (the loop overshoots the declared count). -/
theorem C6_counterexample :
    ConstantPool.readOne (encU16 2 ++ [5, 0, 0, 0, 0, 0, 0, 0, 42])
      = .ok ({ constants := [.long 42], skipTable := [0] }, []) ∧
    logicalLen [Constant.long 42] ≠ 2 - 1 := by
  exact ⟨rfl, by decide⟩

-- ============================================================================
-- CLAIM C10
-- ============================================================================

/-- Claim C10: after a successful constant-pool decode the skip table
contains exactly the 0-based physical positions of the Long and Double
constants, in strictly increasing order, each strictly below the number
of stored constants. -/
theorem C10_skip_table_invariant (bs : Bytes) (pool : ConstantPool) (rest : Bytes)
    (h : ConstantPool.readOne bs = .ok (pool, rest)) :
    (∀ i, i ∈ pool.skipTable ↔
        ∃ hi : i < pool.constants.length, (pool.constants.get ⟨i, hi⟩).isLongOrDouble = true)
    ∧ List.Pairwise (· < ·) pool.skipTable
    ∧ ∀ i ∈ pool.skipTable, i < pool.constants.length := by
  obtain ⟨count, bs1, _, _, hskip⟩ := ConstantPool.readOne_ok _ _ _ h
  rw [hskip]
  unfold assembleSkipTable
  refine ⟨?_, assembleSkipTableFrom_pairwise _ 0, ?_⟩
  · intro i
    rw [mem_assembleSkipTableFrom]
    constructor
    · rintro ⟨j, hj, rfl, hld⟩
      exact ⟨by simpa using hj, by simpa using hld⟩
    · rintro ⟨hi, hld⟩
      exact ⟨i, hi, by omega, hld⟩
  · intro i hmem
    obtain ⟨j, hj, rfl, _⟩ := (mem_assembleSkipTableFrom _ 0 i).mp hmem
    omega

/-- Witness for C10 at a decoded pool containing a Double and a Utf8
constant. -/
theorem C10_skip_table_invariant_witness :
    (∀ i, i ∈ (ConstantPool.mk [.double 3, .utf8 [68]] [0]).skipTable ↔
        ∃ hi : i < (ConstantPool.mk [.double 3, .utf8 [68]] [0]).constants.length,
          ((ConstantPool.mk [.double 3, .utf8 [68]] [0]).constants.get ⟨i, hi⟩).isLongOrDouble = true)
    ∧ List.Pairwise (· < ·) (ConstantPool.mk [.double 3, .utf8 [68]] [0]).skipTable
    ∧ ∀ i ∈ (ConstantPool.mk [.double 3, .utf8 [68]] [0]).skipTable,
        i < (ConstantPool.mk [.double 3, .utf8 [68]] [0]).constants.length :=
  C10_skip_table_invariant [0, 4, 6, 0, 0, 0, 0, 0, 0, 0, 3, 1, 0, 1, 68]
    (ConstantPool.mk [.double 3, .utf8 [68]] [0]) [] rfl

-- ============================================================================
-- ATTRIBUTES (src/class/attributes.rs)
-- ============================================================================

/-- The attribute name ConstantValue as wire bytes. -/
def nmConstantValue : Bytes := [67, 111, 110, 115, 116, 97, 110, 116, 86, 97, 108, 117, 101]

/-- The attribute name Code as wire bytes. -/
def nmCode : Bytes := [67, 111, 100, 101]

/-- The attribute name StackMapTable as wire bytes. -/
def nmStackMapTable : Bytes := [83, 116, 97, 99, 107, 77, 97, 112, 84, 97, 98, 108, 101]

/-- The attribute name Exceptions as wire bytes. -/
def nmExceptions : Bytes := [69, 120, 99, 101, 112, 116, 105, 111, 110, 115]

/-- The attribute name InnerClasses as wire bytes. -/
def nmInnerClasses : Bytes := [73, 110, 110, 101, 114, 67, 108, 97, 115, 115, 101, 115]

/-- The attribute name EnclosingMethod as wire bytes. -/
def nmEnclosingMethod : Bytes := [69, 110, 99, 108, 111, 115, 105, 110, 103, 77, 101, 116, 104, 111, 100]

/-- The attribute name Synthetic as wire bytes. -/
def nmSynthetic : Bytes := [83, 121, 110, 116, 104, 101, 116, 105, 99]

/-- The attribute name Signature as wire bytes. -/
def nmSignature : Bytes := [83, 105, 103, 110, 97, 116, 117, 114, 101]

/-- The attribute name SourceFile as wire bytes. -/
def nmSourceFile : Bytes := [83, 111, 117, 114, 99, 101, 70, 105, 108, 101]

/-- The attribute name SourceDebugExtension as wire bytes. -/
def nmSourceDebugExtension : Bytes :=
  [83, 111, 117, 114, 99, 101, 68, 101, 98, 117, 103, 69, 120, 116, 101, 110, 115, 105, 111, 110]

/-- The attribute name LineNumberTable as wire bytes. -/
def nmLineNumberTable : Bytes := [76, 105, 110, 101, 78, 117, 109, 98, 101, 114, 84, 97, 98, 108, 101]

/-- The attribute name LocalVariableTable as wire bytes. -/
def nmLocalVariableTable : Bytes :=
  [76, 111, 99, 97, 108, 86, 97, 114, 105, 97, 98, 108, 101, 84, 97, 98, 108, 101]

/-- The attribute name LocalVariableTypeTable as wire bytes. -/
def nmLocalVariableTypeTable : Bytes :=
  [76, 111, 99, 97, 108, 86, 97, 114, 105, 97, 98, 108, 101, 84, 121, 112, 101, 84, 97, 98, 108, 101]

/-- The attribute name Deprecated as wire bytes. -/
def nmDeprecated : Bytes := [68, 101, 112, 114, 101, 99, 97, 116, 101, 100]

/-- The attribute name RuntimeVisibleAnnotations as wire bytes. -/
def nmRuntimeVisibleAnnotations : Bytes :=
  [82, 117, 110, 116, 105, 109, 101, 86, 105, 115, 105, 98, 108, 101, 65, 110, 110, 111, 116, 97,
   116, 105, 111, 110, 115]

/-- The attribute name RuntimeInvisibleAnnotations as wire bytes. -/
def nmRuntimeInvisibleAnnotations : Bytes :=
  [82, 117, 110, 116, 105, 109, 101, 73, 110, 118, 105, 115, 105, 98, 108, 101, 65, 110, 110, 111,
   116, 97, 116, 105, 111, 110, 115]

/-- The attribute name RuntimeVisibleParameterAnnotations as wire bytes. -/
def nmRuntimeVisibleParameterAnnotations : Bytes :=
  [82, 117, 110, 116, 105, 109, 101, 86, 105, 115, 105, 98, 108, 101, 80, 97, 114, 97, 109, 101,
   116, 101, 114, 65, 110, 110, 111, 116, 97, 116, 105, 111, 110, 115]

/-- The attribute name RuntimeInvisibleParameterAnnotations as wire bytes. -/
def nmRuntimeInvisibleParameterAnnotations : Bytes :=
  [82, 117, 110, 116, 105, 109, 101, 73, 110, 118, 105, 115, 105, 98, 108, 101, 80, 97, 114, 97,
   109, 101, 116, 101, 114, 65, 110, 110, 111, 116, 97, 116, 105, 111, 110, 115]

/-- The attribute name AnnotationDefault as wire bytes. -/
def nmAnnotationDefault : Bytes :=
  [65, 110, 110, 111, 116, 97, 116, 105, 111, 110, 68, 101, 102, 97, 117, 108, 116]

/-- The attribute name BootstrapMethods as wire bytes. -/
def nmBootstrapMethods : Bytes :=
  [66, 111, 111, 116, 115, 116, 114, 97, 112, 77, 101, 116, 104, 111, 100, 115]

/-- All attribute names the dispatch recognises; every other name falls
through to the Misc arm. -/
def knownAttributeNames : List Bytes :=
  [nmConstantValue, nmCode, nmStackMapTable, nmExceptions, nmInnerClasses, nmEnclosingMethod,
   nmSynthetic, nmSignature, nmSourceFile, nmSourceDebugExtension, nmLineNumberTable,
   nmLocalVariableTable, nmLocalVariableTypeTable, nmDeprecated, nmRuntimeVisibleAnnotations,
   nmRuntimeInvisibleAnnotations, nmRuntimeVisibleParameterAnnotations,
   nmRuntimeInvisibleParameterAnnotations, nmAnnotationDefault, nmBootstrapMethods]

/-- The VerificationType enum of stack-map frames. -/
inductive VerificationType where
  | top
  | integer
  | float
  | long
  | double
  | null
  | uninitializedThis
  | object (constantIndex : Nat)
  | uninitialized (offset : Nat)
  deriving DecidableEq

/-- ReadOne for VerificationType: u8 tag dispatch (the source lists the
arms in the order 0, 1, 2, 5, 6, 7, 8, 4, 3). -/
def VerificationType.readOne : P VerificationType := do
  let tag ← readU8
  match tag with
  | 0 => pure VerificationType.top
  | 1 => pure VerificationType.integer
  | 2 => pure VerificationType.float
  | 5 => pure VerificationType.null
  | 6 => pure VerificationType.uninitializedThis
  | 7 => do let i ← readU16; pure (VerificationType.object i)
  | 8 => do let off ← readU16; pure (VerificationType.uninitialized off)
  | 4 => pure VerificationType.long
  | 3 => pure VerificationType.double
  | _ => pfail .unknownVerificationType

/-- The StackMapTableAttribute enum: one stack-map frame. -/
inductive StackMapTableAttribute where
  | same (offsetDelta : Nat)
  | sameLocalsOneStackItem (offsetDelta : Nat) (stack : VerificationType)
  | sameLocalsOneStackItemExtended (offsetDelta : Nat) (stack : VerificationType)
  | chop (offsetDelta : Nat)
  | sameExtended (offsetDelta : Nat)
  | append (offsetDelta : Nat) (locals : List VerificationType)
  | full (offsetDelta : Nat) (locals : List VerificationType) (stack : List VerificationType)
  deriving DecidableEq

/-- ReadOne for StackMapTableAttribute: the frame-type byte selects the
frame shape; the per-frame read_one bodies of the source are inlined in
the corresponding arms. -/
def StackMapTableAttribute.readOne : P StackMapTableAttribute := do
  let frameType ← readU8
  if frameType ≤ 63 then
    pure (StackMapTableAttribute.same frameType)
  else if frameType ≤ 127 then do
    let stack ← VerificationType.readOne
    pure (StackMapTableAttribute.sameLocalsOneStackItem (frameType - 64) stack)
  else if frameType ≤ 246 then
    pfail (.reservedFrameType frameType)
  else if frameType = 247 then do
    let offsetDelta ← readU16
    let stack ← VerificationType.readOne
    pure (StackMapTableAttribute.sameLocalsOneStackItemExtended offsetDelta stack)
  else if frameType ≤ 250 then do
    let offsetDelta ← readU16
    pure (StackMapTableAttribute.chop offsetDelta)
  else if frameType = 251 then do
    let offsetDelta ← readU16
    pure (StackMapTableAttribute.sameExtended offsetDelta)
  else if frameType ≤ 254 then do
    let offsetDelta ← readU16
    let locals ← readN VerificationType.readOne (frameType - 251)
    pure (StackMapTableAttribute.append offsetDelta locals)
  else if frameType = 255 then do
    let offsetDelta ← readU16
    let locals ← readCounted VerificationType.readOne
    let stack ← readCounted VerificationType.readOne
    pure (StackMapTableAttribute.full offsetDelta locals stack)
  else
    pfail (.unknownFrameType frameType)

/-- The body of a StackMapTable attribute as the source reads it:
ReadAll::read_all, a u16 count followed by that many frames. -/
def stackMapTableBody : P (List StackMapTableAttribute) :=
  readCounted StackMapTableAttribute.readOne

/-- The ConstantValueAttribute struct. -/
structure ConstantValueAttribute where
  constValueIndex : Nat
  deriving DecidableEq

/-- ReadOne for ConstantValueAttribute. -/
def ConstantValueAttribute.readOne : P ConstantValueAttribute := do
  let constValueIndex ← readU16
  pure { constValueIndex := constValueIndex }

/-- The ExceptionTableAttribute struct (one entry of a Code attribute's
exception table). -/
structure ExceptionTableAttribute where
  startPc : Nat
  endPc : Nat
  handlerPc : Nat
  catchType : Nat
  deriving DecidableEq

/-- ReadOne for ExceptionTableAttribute. -/
def ExceptionTableAttribute.readOne : P ExceptionTableAttribute := do
  let startPc ← readU16
  let endPc ← readU16
  let handlerPc ← readU16
  let catchType ← readU16
  pure { startPc := startPc, endPc := endPc, handlerPc := handlerPc, catchType := catchType }

/-- The ExceptionIndexAttribute struct. -/
structure ExceptionIndexAttribute where
  index : Nat
  deriving DecidableEq

/-- ReadOne for ExceptionIndexAttribute. -/
def ExceptionIndexAttribute.readOne : P ExceptionIndexAttribute := do
  let index ← readU16
  pure { index := index }

/-- The recognised inner-class access-flag bits. -/
def innerClassAccessMask : Nat :=
  0x0001 ||| 0x0002 ||| 0x0004 ||| 0x0008 ||| 0x0010 ||| 0x0200 ||| 0x0400 ||| 0x1000 |||
  0x2000 ||| 0x4000

/-- InnerClassAccessFlags::from_bits on a u16 word: some exactly when no
bit outside the mask is set. -/
def InnerClassAccessFlags.fromBits (bits : Nat) : Option Nat :=
  if bits &&& (0xFFFF ^^^ innerClassAccessMask) = 0 then some bits else none

/-- The InnerClassAttribute struct. -/
structure InnerClassAttribute where
  innerClassInfoIndex : Nat
  outerClassInfoIndex : Nat
  innerNameIndex : Nat
  innerClassAccessFlags : Nat
  deriving DecidableEq

/-- ReadOne for InnerClassAttribute, validating the access flags. -/
def InnerClassAttribute.readOne : P InnerClassAttribute := do
  let innerClassInfoIndex ← readU16
  let outerClassInfoIndex ← readU16
  let innerNameIndex ← readU16
  let w ← readU16
  match InnerClassAccessFlags.fromBits w with
  | some flags =>
    pure { innerClassInfoIndex := innerClassInfoIndex,
           outerClassInfoIndex := outerClassInfoIndex,
           innerNameIndex := innerNameIndex,
           innerClassAccessFlags := flags }
  | none => pfail .invalidInnerClassAccessFlags

/-- The EnclosingMethodAttribute struct. -/
structure EnclosingMethodAttribute where
  classIndex : Nat
  methodIndex : Nat
  deriving DecidableEq

/-- ReadOne for EnclosingMethodAttribute. -/
def EnclosingMethodAttribute.readOne : P EnclosingMethodAttribute := do
  let classIndex ← readU16
  let methodIndex ← readU16
  pure { classIndex := classIndex, methodIndex := methodIndex }

/-- The SignatureAttribute struct. -/
structure SignatureAttribute where
  signatureIndex : Nat
  deriving DecidableEq

/-- ReadOne for SignatureAttribute. -/
def SignatureAttribute.readOne : P SignatureAttribute := do
  let signatureIndex ← readU16
  pure { signatureIndex := signatureIndex }

/-- The SourceFileAttribute struct. -/
structure SourceFileAttribute where
  sourcefileIndex : Nat
  deriving DecidableEq

/-- ReadOne for SourceFileAttribute. -/
def SourceFileAttribute.readOne : P SourceFileAttribute := do
  let sourcefileIndex ← readU16
  pure { sourcefileIndex := sourcefileIndex }

/-- The SourceDebugExtensionAttribute struct. -/
structure SourceDebugExtensionAttribute where
  debugInfo : Bytes
  deriving DecidableEq

/-- ReadOne for SourceDebugExtensionAttribute: captures exactly the
declared attribute length from the context. -/
def SourceDebugExtensionAttribute.readOne (length : Nat) : P SourceDebugExtensionAttribute := do
  let debugInfo ← readExact length
  pure { debugInfo := debugInfo }

/-- The LineNumberTableAttribute struct (one table entry). -/
structure LineNumberTableAttribute where
  startPc : Nat
  lineNumber : Nat
  deriving DecidableEq

/-- ReadOne for LineNumberTableAttribute. -/
def LineNumberTableAttribute.readOne : P LineNumberTableAttribute := do
  let startPc ← readU16
  let lineNumber ← readU16
  pure { startPc := startPc, lineNumber := lineNumber }

/-- The LocalVariableTableAttribute struct (one table entry). -/
structure LocalVariableTableAttribute where
  startPc : Nat
  length : Nat
  nameIndex : Nat
  descriptorIndex : Nat
  index : Nat
  deriving DecidableEq

/-- ReadOne for LocalVariableTableAttribute. -/
def LocalVariableTableAttribute.readOne : P LocalVariableTableAttribute := do
  let startPc ← readU16
  let length ← readU16
  let nameIndex ← readU16
  let descriptorIndex ← readU16
  let index ← readU16
  pure { startPc := startPc, length := length, nameIndex := nameIndex,
         descriptorIndex := descriptorIndex, index := index }

/-- The LocalVariableTypeTableAttribute struct (one table entry). -/
structure LocalVariableTypeTableAttribute where
  startPc : Nat
  length : Nat
  nameIndex : Nat
  signatureIndex : Nat
  index : Nat
  deriving DecidableEq

/-- ReadOne for LocalVariableTypeTableAttribute. -/
def LocalVariableTypeTableAttribute.readOne : P LocalVariableTypeTableAttribute := do
  let startPc ← readU16
  let length ← readU16
  let nameIndex ← readU16
  let signatureIndex ← readU16
  let index ← readU16
  pure { startPc := startPc, length := length, nameIndex := nameIndex,
         signatureIndex := signatureIndex, index := index }

mutual

/-- The ElementValue enum of annotation element values. -/
inductive ElementValue where
  | constant (constValueIndex : Nat)
  | enumValue (typeNameIndex constNameIndex : Nat)
  | classInfo (classInfoIndex : Nat)
  | annotationValue (value : AnnotationAttribute)
  | array (arrayValues : List ElementValue)

/-- The ElementValuePair struct. -/
inductive ElementValuePair where
  | mk (elementNameIndex : Nat) (value : ElementValue)

/-- The AnnotationAttribute struct. -/
inductive AnnotationAttribute where
  | mk (typeIndex : Nat) (elementValuePairs : List ElementValuePair)

end

mutual

/-- ReadOne for ElementValue: dispatch on the ASCII tag byte
(B C D F I J S Z s are 66 67 68 70 73 74 83 90 115; e c are 101 99;
the at sign is 64 and the opening square bracket is 91).  The fuel
argument makes the mutual recursion structural. -/
def ElementValue.readOne : Nat → P ElementValue
  | 0 => pfail .outOfFuel
  | fuel + 1 => do
    let tag ← readU8
    if tag = 66 ∨ tag = 67 ∨ tag = 68 ∨ tag = 70 ∨ tag = 73 ∨ tag = 74 ∨ tag = 83 ∨
        tag = 90 ∨ tag = 115 then do
      let constValueIndex ← readU16
      pure (ElementValue.constant constValueIndex)
    else if tag = 101 then do
      let typeNameIndex ← readU16
      let constNameIndex ← readU16
      pure (ElementValue.enumValue typeNameIndex constNameIndex)
    else if tag = 99 then do
      let classInfoIndex ← readU16
      pure (ElementValue.classInfo classInfoIndex)
    else if tag = 64 then do
      let value ← AnnotationAttribute.readOne fuel
      pure (ElementValue.annotationValue value)
    else if tag = 91 then do
      let arrayValues ← readCounted (ElementValue.readOne fuel)
      pure (ElementValue.array arrayValues)
    else
      pfail .unknownElementValueTag

/-- ReadOne for ElementValuePair. -/
def ElementValuePair.readOne : Nat → P ElementValuePair
  | 0 => pfail .outOfFuel
  | fuel + 1 => do
    let elementNameIndex ← readU16
    let value ← ElementValue.readOne fuel
    pure (ElementValuePair.mk elementNameIndex value)

/-- ReadOne for AnnotationAttribute: a type index and a u16-counted list
of element-value pairs. -/
def AnnotationAttribute.readOne : Nat → P AnnotationAttribute
  | 0 => pfail .outOfFuel
  | fuel + 1 => do
    let typeIndex ← readU16
    let elementValuePairs ← readCounted (ElementValuePair.readOne fuel)
    pure (AnnotationAttribute.mk typeIndex elementValuePairs)

end

/-- The ParameterAnnotationAttribute struct: one parameter's u16-counted
annotation list. -/
structure ParameterAnnotationAttribute where
  annotations : List AnnotationAttribute

/-- ReadOne for ParameterAnnotationAttribute. -/
def ParameterAnnotationAttribute.readOne (fuel : Nat) : P ParameterAnnotationAttribute := do
  let annos ← readCounted (AnnotationAttribute.readOne fuel)
  pure { annotations := annos }

/-- The BootstrapMethodAttribute struct. -/
structure BootstrapMethodAttribute where
  bootstrapMethodRef : Nat
  bootstrapArguments : List Nat
  deriving DecidableEq

/-- ReadOne for BootstrapMethodAttribute: the method reference followed by
a u16-counted run of u16 arguments (read_u16_into). -/
def BootstrapMethodAttribute.readOne : P BootstrapMethodAttribute := do
  let bootstrapMethodRef ← readU16
  let count ← readU16
  let bootstrapArguments ← readN readU16 count
  pure { bootstrapMethodRef := bootstrapMethodRef, bootstrapArguments := bootstrapArguments }

/-- The Attribute enum.  The Code variant inlines the CodeAttribute struct
fields, and Misc inlines the MiscAttribute struct fields, because both
participate in the recursion. -/
inductive Attribute where
  | constantValue (value : ConstantValueAttribute)
  | code (maxStack maxLocals : Nat) (codeBytes : Bytes)
      (exceptionTables : List ExceptionTableAttribute) (attributes : List Attribute)
  | stackMapTable (frames : List StackMapTableAttribute)
  | exceptions (indices : List ExceptionIndexAttribute)
  | innerClasses (entries : List InnerClassAttribute)
  | enclosingMethod (value : EnclosingMethodAttribute)
  | synthetic
  | signature (value : SignatureAttribute)
  | sourceFile (value : SourceFileAttribute)
  | sourceDebugExtension (value : SourceDebugExtensionAttribute)
  | lineNumberTable (entries : List LineNumberTableAttribute)
  | localVariableTable (entries : List LocalVariableTableAttribute)
  | localVariableTypeTable (entries : List LocalVariableTypeTableAttribute)
  | deprecated
  | runtimeVisibleAnnotations (entries : List AnnotationAttribute)
  | runtimeInvisibleAnnotations (entries : List AnnotationAttribute)
  | runtimeVisibleParameterAnnotations (entries : List ParameterAnnotationAttribute)
  | runtimeInvisibleParameterAnnotations (entries : List ParameterAnnotationAttribute)
  | annotationDefault (defaultValue : ElementValue)
  | bootstrapMethods (entries : List BootstrapMethodAttribute)
  | misc (nameIndex : Nat) (info : Bytes)

/-- ReadOne for Attribute: read the u16 name index and u32 length,
dereference the name through the pool index operation (it must be a Utf8
constant), then dispatch on the resolved name; unknown names capture the
declared length verbatim into Misc.  The Code arm inlines
CodeAttribute::read_one, whose nested attribute list recurses through the
fuel argument. -/
def Attribute.readOne (pool : ConstantPool) : Nat → P Attribute
  | 0 => pfail .outOfFuel
  | fuel + 1 => do
    let attributeNameIndex ← readU16
    let attributeLength ← readU32
    let attributeName ← (match pool.index attributeNameIndex with
      | some (Constant.utf8 value) => (pure value : P Bytes)
      | some _ => pfail .attributeNameNotUtf8
      | none => pfail .indexPanicked)
    if attributeName = nmConstantValue then do
      let value ← ConstantValueAttribute.readOne
      pure (Attribute.constantValue value)
    else if attributeName = nmCode then do
      let maxStack ← readU16
      let maxLocals ← readU16
      let codeLength ← readU32
      let codeBytes ← readExact codeLength
      let exceptionTables ← readCounted ExceptionTableAttribute.readOne
      let attributes ← readCounted (Attribute.readOne pool fuel)
      pure (Attribute.code maxStack maxLocals codeBytes exceptionTables attributes)
    else if attributeName = nmStackMapTable then do
      let frames ← stackMapTableBody
      pure (Attribute.stackMapTable frames)
    else if attributeName = nmExceptions then do
      let indices ← readCounted ExceptionIndexAttribute.readOne
      pure (Attribute.exceptions indices)
    else if attributeName = nmInnerClasses then do
      let entries ← readCounted InnerClassAttribute.readOne
      pure (Attribute.innerClasses entries)
    else if attributeName = nmEnclosingMethod then do
      let value ← EnclosingMethodAttribute.readOne
      pure (Attribute.enclosingMethod value)
    else if attributeName = nmSynthetic then
      pure Attribute.synthetic
    else if attributeName = nmSignature then do
      let value ← SignatureAttribute.readOne
      pure (Attribute.signature value)
    else if attributeName = nmSourceFile then do
      let value ← SourceFileAttribute.readOne
      pure (Attribute.sourceFile value)
    else if attributeName = nmSourceDebugExtension then do
      let value ← SourceDebugExtensionAttribute.readOne attributeLength
      pure (Attribute.sourceDebugExtension value)
    else if attributeName = nmLineNumberTable then do
      let entries ← readCounted LineNumberTableAttribute.readOne
      pure (Attribute.lineNumberTable entries)
    else if attributeName = nmLocalVariableTable then do
      let entries ← readCounted LocalVariableTableAttribute.readOne
      pure (Attribute.localVariableTable entries)
    else if attributeName = nmLocalVariableTypeTable then do
      let entries ← readCounted LocalVariableTypeTableAttribute.readOne
      pure (Attribute.localVariableTypeTable entries)
    else if attributeName = nmDeprecated then
      pure Attribute.deprecated
    else if attributeName = nmRuntimeVisibleAnnotations then do
      let entries ← readCounted (AnnotationAttribute.readOne fuel)
      pure (Attribute.runtimeVisibleAnnotations entries)
    else if attributeName = nmRuntimeInvisibleAnnotations then do
      let entries ← readCounted (AnnotationAttribute.readOne fuel)
      pure (Attribute.runtimeInvisibleAnnotations entries)
    else if attributeName = nmRuntimeVisibleParameterAnnotations then do
      let entries ← readCounted8 (ParameterAnnotationAttribute.readOne fuel)
      pure (Attribute.runtimeVisibleParameterAnnotations entries)
    else if attributeName = nmRuntimeInvisibleParameterAnnotations then do
      let entries ← readCounted8 (ParameterAnnotationAttribute.readOne fuel)
      pure (Attribute.runtimeInvisibleParameterAnnotations entries)
    else if attributeName = nmAnnotationDefault then do
      let defaultValue ← ElementValue.readOne fuel
      pure (Attribute.annotationDefault defaultValue)
    else if attributeName = nmBootstrapMethods then do
      let entries ← readCounted BootstrapMethodAttribute.readOne
      pure (Attribute.bootstrapMethods entries)
    else do
      let info ← readExact attributeLength
      pure (Attribute.misc attributeNameIndex info)

-- ============================================================================
-- FIELDS, METHODS, CLASS (src/class/mod.rs)
-- ============================================================================

/-- The recognised class access-flag bits: PUBLIC, FINAL, SUPER,
INTERFACE, ABSTRACT, SYNTHETIC, ANNOTATION, ENUM. -/
def classAccessMask : Nat :=
  0x0001 ||| 0x0010 ||| 0x0020 ||| 0x0200 ||| 0x0400 ||| 0x1000 ||| 0x2000 ||| 0x4000

/-- The recognised field access-flag bits: PUBLIC, PRIVATE, PROTECTED,
STATIC, FINAL, VOLATILE, TRANSIENT, SYNTHETIC, ENUM. -/
def fieldAccessMask : Nat :=
  0x0001 ||| 0x0002 ||| 0x0004 ||| 0x0008 ||| 0x0010 ||| 0x0040 ||| 0x0080 ||| 0x1000 ||| 0x4000

/-- The recognised method access-flag bits: PUBLIC, PRIVATE, PROTECTED,
STATIC, FINAL, SYNCHRONIZED, BRIDGE, VARARGS, NATIVE, ABSTRACT, STRICT,
SYNTHETIC. -/
def methodAccessMask : Nat :=
  0x0001 ||| 0x0002 ||| 0x0004 ||| 0x0008 ||| 0x0010 ||| 0x0020 ||| 0x0040 ||| 0x0080 |||
  0x0100 ||| 0x0400 ||| 0x0800 ||| 0x1000

/-- ClassAccessFlags::from_bits on a u16 word: some exactly when no bit
outside the mask is set. -/
def ClassAccessFlags.fromBits (bits : Nat) : Option Nat :=
  if bits &&& (0xFFFF ^^^ classAccessMask) = 0 then some bits else none

/-- FieldAccessFlags::from_bits on a u16 word. -/
def FieldAccessFlags.fromBits (bits : Nat) : Option Nat :=
  if bits &&& (0xFFFF ^^^ fieldAccessMask) = 0 then some bits else none

/-- MethodAccessFlags::from_bits on a u16 word. -/
def MethodAccessFlags.fromBits (bits : Nat) : Option Nat :=
  if bits &&& (0xFFFF ^^^ methodAccessMask) = 0 then some bits else none

/-- The FieldInfo struct. -/
structure FieldInfo where
  accessFlags : Nat
  nameIndex : Nat
  descriptorIndex : Nat
  attributes : List Attribute

/-- ReadOne for FieldInfo: read and validate the access flags, then the
name and descriptor indices and the attribute list. -/
def FieldInfo.readOne (pool : ConstantPool) (fuel : Nat) : P FieldInfo := do
  let w ← readU16
  let accessFlags ← (match FieldAccessFlags.fromBits w with
    | some flags => (pure flags : P Nat)
    | none => pfail .invalidFieldAccessFlags)
  let nameIndex ← readU16
  let descriptorIndex ← readU16
  let attributes ← readCounted (Attribute.readOne pool fuel)
  pure { accessFlags := accessFlags, nameIndex := nameIndex,
         descriptorIndex := descriptorIndex, attributes := attributes }

/-- The Interface struct. -/
structure Interface where
  interfaceIndex : Nat
  deriving DecidableEq

/-- ReadOne for Interface. -/
def Interface.readOne : P Interface := do
  let interfaceIndex ← readU16
  pure { interfaceIndex := interfaceIndex }

/-- The MethodInfo struct. -/
structure MethodInfo where
  accessFlags : Nat
  nameIndex : Nat
  descriptorIndex : Nat
  attributes : List Attribute

/-- ReadOne for MethodInfo. -/
def MethodInfo.readOne (pool : ConstantPool) (fuel : Nat) : P MethodInfo := do
  let w ← readU16
  let accessFlags ← (match MethodAccessFlags.fromBits w with
    | some flags => (pure flags : P Nat)
    | none => pfail .invalidMethodAccessFlags)
  let nameIndex ← readU16
  let descriptorIndex ← readU16
  let attributes ← readCounted (Attribute.readOne pool fuel)
  pure { accessFlags := accessFlags, nameIndex := nameIndex,
         descriptorIndex := descriptorIndex, attributes := attributes }

/-- The magic value that starts every class file. -/
def CLASS_MAGIC : Nat := 0xCAFEBABE

/-- The Class struct. -/
structure Class where
  minorVersion : Nat
  majorVersion : Nat
  constantPool : ConstantPool
  accessFlags : Nat
  thisClass : Nat
  superClass : Nat
  interfaces : List Interface
  fields : List FieldInfo
  methods : List MethodInfo
  attributes : List Attribute

/-- Everything Class::read does after the magic check: versions, constant
pool, class access flags, this and super references, interfaces, fields,
methods, class attributes, and the trailing-data check.  The source reads
the trailing data with reader.read into a freshly created empty Vec; a
read into a zero-length buffer always returns zero bytes, so rest stays
empty regardless of the stream position. -/
def Class.readBody (fuel : Nat) : P Class := do
  let minorVersion ← readU16
  let majorVersion ← readU16
  let constantPool ← ConstantPool.readOne
  let w ← readU16
  let accessFlags ← (match ClassAccessFlags.fromBits w with
    | some flags => (pure flags : P Nat)
    | none => pfail .invalidClassAccessFlags)
  let thisClass ← readU16
  let superClass ← readU16
  let interfaces ← readCounted Interface.readOne
  let fields ← readCounted (FieldInfo.readOne constantPool fuel)
  let methods ← readCounted (MethodInfo.readOne constantPool fuel)
  let attributes ← readCounted (Attribute.readOne constantPool fuel)
  let rest : Bytes := []
  if !rest.isEmpty then
    pfail .trailingData
  else
    pure { minorVersion := minorVersion, majorVersion := majorVersion,
           constantPool := constantPool, accessFlags := accessFlags,
           thisClass := thisClass, superClass := superClass,
           interfaces := interfaces, fields := fields, methods := methods,
           attributes := attributes }

/-- Class::read: check the magic and run the rest of the parse. -/
def Class.read (fuel : Nat) : P Class := do
  let magic ← readU32
  if magic ≠ CLASS_MAGIC then pfail .badMagic
  else Class.readBody fuel

-- ============================================================================
-- CLAIM C4
-- ============================================================================

/-- Claim C4 (code-bug evidence).  The minimal class of spec scenario S1
followed by one extra byte parses successfully and leaves that byte
unread: the trailing-data check reads into a zero-length buffer, so it
can never observe a byte and never fails. -/
theorem C4_trailing_bytes_accepted :
    Class.read 1
        [0xCA, 0xFE, 0xBA, 0xBE, 0, 0, 0, 0x34, 0, 2, 1, 0, 1, 65, 0, 0x21,
         0, 1, 0, 1, 0, 0, 0, 0, 0, 0, 0, 0, 0]
      = .ok ({ minorVersion := 0, majorVersion := 52,
               constantPool := { constants := [.utf8 [65]], skipTable := [] },
               accessFlags := 0x21, thisClass := 1, superClass := 1,
               interfaces := [], fields := [], methods := [], attributes := [] }, [0]) := rfl

-- ============================================================================
-- CLAIM C5
-- ============================================================================

/-- Verification-type decoding written from the table in the
specification: tags 0 Top, 1 Integer, 2 Float, 3 Double, 4 Long, 5 Null,
6 UninitializedThis, 7 Object of a u16 pool index, 8 Uninitialized of a
u16 offset; a tag outside 0 to 8 is an error. -/
def verificationTypeSpec : P VerificationType := do
  let tag ← readU8
  if tag = 0 then pure VerificationType.top
  else if tag = 1 then pure VerificationType.integer
  else if tag = 2 then pure VerificationType.float
  else if tag = 3 then pure VerificationType.double
  else if tag = 4 then pure VerificationType.long
  else if tag = 5 then pure VerificationType.null
  else if tag = 6 then pure VerificationType.uninitializedThis
  else if tag = 7 then do let i ← readU16; pure (VerificationType.object i)
  else if tag = 8 then do let off ← readU16; pure (VerificationType.uninitialized off)
  else pfail .unknownVerificationType

/-- Stack-map frame decoding written from the frame table in the
specification, with every tag range spelled out as a closed interval. -/
def stackMapFrameSpec : P StackMapTableAttribute := do
  let t ← readU8
  if t ≤ 63 then
    pure (StackMapTableAttribute.same t)
  else if 64 ≤ t ∧ t ≤ 127 then do
    let stack ← verificationTypeSpec
    pure (StackMapTableAttribute.sameLocalsOneStackItem (t - 64) stack)
  else if 128 ≤ t ∧ t ≤ 246 then
    pfail (.reservedFrameType t)
  else if t = 247 then do
    let offsetDelta ← readU16
    let stack ← verificationTypeSpec
    pure (StackMapTableAttribute.sameLocalsOneStackItemExtended offsetDelta stack)
  else if 248 ≤ t ∧ t ≤ 250 then do
    let offsetDelta ← readU16
    pure (StackMapTableAttribute.chop offsetDelta)
  else if t = 251 then do
    let offsetDelta ← readU16
    pure (StackMapTableAttribute.sameExtended offsetDelta)
  else if 252 ≤ t ∧ t ≤ 254 then do
    let offsetDelta ← readU16
    let locals ← readN verificationTypeSpec (t - 251)
    pure (StackMapTableAttribute.append offsetDelta locals)
  else if t = 255 then do
    let offsetDelta ← readU16
    let locals ← readCounted verificationTypeSpec
    let stack ← readCounted verificationTypeSpec
    pure (StackMapTableAttribute.full offsetDelta locals stack)
  else
    pfail (.unknownFrameType t)

theorem verificationType_eq_spec : VerificationType.readOne = verificationTypeSpec := by
  funext bs
  cases bs with
  | nil => rfl
  | cons b rest => rcases b with _|_|_|_|_|_|_|_|_|b <;> rfl

theorem stackMapFrame_eq_spec : StackMapTableAttribute.readOne = stackMapFrameSpec := by
  funext bs
  cases bs with
  | nil => rfl
  | cons t rest =>
    show (StackMapTableAttribute.readOne) (t :: rest) = (stackMapFrameSpec) (t :: rest)
    simp only [StackMapTableAttribute.readOne, stackMapFrameSpec, bind_apply, readU8,
      verificationType_eq_spec]
    by_cases h1 : t ≤ 63
    · simp only [if_pos h1]
    · by_cases h2 : t ≤ 127
      · simp only [if_neg h1, if_pos h2, if_pos (show 64 ≤ t ∧ t ≤ 127 from ⟨by omega, h2⟩)]
      · by_cases h3 : t ≤ 246
        · simp only [if_neg h1, if_neg h2, if_pos h3,
            if_neg (show ¬(64 ≤ t ∧ t ≤ 127) from by omega),
            if_pos (show 128 ≤ t ∧ t ≤ 246 from ⟨by omega, h3⟩)]
        · by_cases h4 : t = 247
          · simp only [if_neg h1, if_neg h2, if_neg h3, if_pos h4,
              if_neg (show ¬(64 ≤ t ∧ t ≤ 127) from by omega),
              if_neg (show ¬(128 ≤ t ∧ t ≤ 246) from by omega)]
          · by_cases h5 : t ≤ 250
            · simp only [if_neg h1, if_neg h2, if_neg h3, if_neg h4, if_pos h5,
                if_neg (show ¬(64 ≤ t ∧ t ≤ 127) from by omega),
                if_neg (show ¬(128 ≤ t ∧ t ≤ 246) from by omega),
                if_pos (show 248 ≤ t ∧ t ≤ 250 from ⟨by omega, h5⟩)]
            · by_cases h6 : t = 251
              · simp only [if_neg h1, if_neg h2, if_neg h3, if_neg h4, if_neg h5, if_pos h6,
                  if_neg (show ¬(64 ≤ t ∧ t ≤ 127) from by omega),
                  if_neg (show ¬(128 ≤ t ∧ t ≤ 246) from by omega),
                  if_neg (show ¬(248 ≤ t ∧ t ≤ 250) from by omega)]
              · by_cases h7 : t ≤ 254
                · simp only [if_neg h1, if_neg h2, if_neg h3, if_neg h4, if_neg h5, if_neg h6,
                    if_pos h7,
                    if_neg (show ¬(64 ≤ t ∧ t ≤ 127) from by omega),
                    if_neg (show ¬(128 ≤ t ∧ t ≤ 246) from by omega),
                    if_neg (show ¬(248 ≤ t ∧ t ≤ 250) from by omega),
                    if_pos (show 252 ≤ t ∧ t ≤ 254 from ⟨by omega, h7⟩)]
                · by_cases h8 : t = 255
                  · simp only [if_neg h1, if_neg h2, if_neg h3, if_neg h4, if_neg h5, if_neg h6,
                      if_neg h7, if_pos h8,
                      if_neg (show ¬(64 ≤ t ∧ t ≤ 127) from by omega),
                      if_neg (show ¬(128 ≤ t ∧ t ≤ 246) from by omega),
                      if_neg (show ¬(248 ≤ t ∧ t ≤ 250) from by omega),
                      if_neg (show ¬(252 ≤ t ∧ t ≤ 254) from by omega)]
                  · simp only [if_neg h1, if_neg h2, if_neg h3, if_neg h4, if_neg h5, if_neg h6,
                      if_neg h7, if_neg h8,
                      if_neg (show ¬(64 ≤ t ∧ t ≤ 127) from by omega),
                      if_neg (show ¬(128 ≤ t ∧ t ≤ 246) from by omega),
                      if_neg (show ¬(248 ≤ t ∧ t ≤ 250) from by omega),
                      if_neg (show ¬(252 ≤ t ∧ t ≤ 254) from by omega)]

/-- Claim C5: the StackMapTable body the code reads is a u16-counted
sequence of frames, frame dispatch on the first byte agrees with the
specification's tag-range table, and verification-type dispatch agrees
with the specification's tag table (tags outside 0 to 8 error). -/
theorem C5_stack_map_dispatch :
    stackMapTableBody = readCounted stackMapFrameSpec ∧
    StackMapTableAttribute.readOne = stackMapFrameSpec ∧
    VerificationType.readOne = verificationTypeSpec := by
  refine ⟨?_, stackMapFrame_eq_spec, verificationType_eq_spec⟩
  unfold stackMapTableBody
  rw [stackMapFrame_eq_spec]

-- ============================================================================
-- CLAIM C3
-- ============================================================================

/-- Counterexample for claim C3 as stated: a ConstantValue attribute with
declared length 4 and four available body bytes decodes successfully,
consuming only the two bytes its grammar dictates and leaving the other
two declared body bytes unread, instead of failing with a
trailing-attribute-bytes error (no such error exists in the source). -/
theorem C3_counterexample :
    Attribute.readOne (ConstantPool.mk [.utf8 nmConstantValue] []) 1
        (encU16 1 ++ encU32 4 ++ [0, 7, 9, 9])
      = .ok (.constantValue ⟨7⟩, [9, 9]) := rfl

/-- The known attribute names whose body decoding never consults the
declared length (every known kind except SourceDebugExtension, whose body
is the declared length itself). -/
def lengthIgnoredNames : List Bytes :=
  [nmConstantValue, nmCode, nmStackMapTable, nmExceptions, nmInnerClasses, nmEnclosingMethod,
   nmSynthetic, nmSignature, nmSourceFile, nmLineNumberTable, nmLocalVariableTable,
   nmLocalVariableTypeTable, nmDeprecated, nmRuntimeVisibleAnnotations,
   nmRuntimeInvisibleAnnotations, nmRuntimeVisibleParameterAnnotations,
   nmRuntimeInvisibleParameterAnnotations, nmAnnotationDefault, nmBootstrapMethods]

/-- Claim C3, amended: for every known attribute kind other than
SourceDebugExtension the declared length is ignored entirely; the body is
decoded directly from the unbounded reader, whatever the declared length
is, so the decode result does not depend on the declared length and no
length-exhaustion check exists. -/
theorem C3_length_ignored (pool : ConstantPool) (fuel ni L1 L2 : Nat) (rest : Bytes)
    (nm : Bytes) (hderef : pool.index ni = some (.utf8 nm))
    (hknown : nm ∈ lengthIgnoredNames) :
    Attribute.readOne pool (fuel + 1) (encU16 ni ++ encU32 L1 ++ rest)
      = Attribute.readOne pool (fuel + 1) (encU16 ni ++ encU32 L2 ++ rest) := by
  have h16a : readU16 (encU16 ni ++ encU32 L1 ++ rest) = .ok (ni, encU32 L1 ++ rest) :=
    readU16_enc ni (encU32 L1 ++ rest)
  have h16b : readU16 (encU16 ni ++ encU32 L2 ++ rest) = .ok (ni, encU32 L2 ++ rest) :=
    readU16_enc ni (encU32 L2 ++ rest)
  have h32a : readU32 (encU32 L1 ++ rest) = .ok (L1, rest) := readU32_enc L1 rest
  have h32b : readU32 (encU32 L2 ++ rest) = .ok (L2, rest) := readU32_enc L2 rest
  simp only [Attribute.readOne, bind_apply, h16a, h16b, h32a, h32b, hderef, pure_apply]
  simp only [lengthIgnoredNames, List.mem_cons, List.not_mem_nil, or_false] at hknown
  rcases hknown with rfl|rfl|rfl|rfl|rfl|rfl|rfl|rfl|rfl|rfl|rfl|rfl|rfl|rfl|rfl|rfl|rfl|rfl|rfl
    <;> rfl

/-- Witness for the amended C3 at a Signature attribute whose declared
lengths 9 and 2 give the same decode. -/
theorem C3_length_ignored_witness :
    Attribute.readOne (ConstantPool.mk [.utf8 nmSignature] []) 1 (encU16 1 ++ encU32 9 ++ [0, 3])
      = Attribute.readOne (ConstantPool.mk [.utf8 nmSignature] []) 1
          (encU16 1 ++ encU32 2 ++ [0, 3]) :=
  C3_length_ignored (ConstantPool.mk [.utf8 nmSignature] []) 0 1 9 2 [0, 3] nmSignature rfl
    (by decide)

-- ============================================================================
-- CLAIM C7
-- ============================================================================

/-- Claim C7: the attribute decoder reads the u16 name index and the u32
length, dereferences the name index through the pool; a non-Utf8 constant
there fails with the malformed-attribute error, and an unrecognised Utf8
name captures exactly the declared length of raw bytes verbatim into a
Misc attribute carrying the name index. -/
theorem C7_attribute_name_and_misc :
    (∀ (pool : ConstantPool) (fuel ni L : Nat) (rest : Bytes) (c : Constant),
      pool.index ni = some c → (∀ b, c ≠ .utf8 b) →
      Attribute.readOne pool (fuel + 1) (encU16 ni ++ encU32 L ++ rest)
        = .error .attributeNameNotUtf8) ∧
    (∀ (pool : ConstantPool) (fuel ni L : Nat) (rest : Bytes) (nm : Bytes),
      pool.index ni = some (.utf8 nm) → nm ∉ knownAttributeNames → L ≤ rest.length →
      Attribute.readOne pool (fuel + 1) (encU16 ni ++ encU32 L ++ rest)
        = .ok (.misc ni (rest.take L), rest.drop L)) := by
  constructor
  · intro pool fuel ni L rest c hderef hne
    have h16 : readU16 (encU16 ni ++ encU32 L ++ rest) = .ok (ni, encU32 L ++ rest) :=
      readU16_enc ni (encU32 L ++ rest)
    have h32 : readU32 (encU32 L ++ rest) = .ok (L, rest) := readU32_enc L rest
    simp only [Attribute.readOne, bind_apply, h16, h32, hderef]
    cases c <;> first
      | exact absurd rfl (hne _)
      | rfl
  · intro pool fuel ni L rest nm hderef hk hlen
    have h16 : readU16 (encU16 ni ++ encU32 L ++ rest) = .ok (ni, encU32 L ++ rest) :=
      readU16_enc ni (encU32 L ++ rest)
    have h32 : readU32 (encU32 L ++ rest) = .ok (L, rest) := readU32_enc L rest
    simp only [knownAttributeNames, List.mem_cons, List.not_mem_nil, or_false, not_or] at hk
    obtain ⟨n1, n2, n3, n4, n5, n6, n7, n8, n9, n10, n11, n12, n13, n14, n15, n16, n17, n18,
      n19, n20⟩ := hk
    simp only [Attribute.readOne, bind_apply, h16, h32, hderef, pure_apply,
      if_neg n1, if_neg n2, if_neg n3, if_neg n4, if_neg n5, if_neg n6, if_neg n7, if_neg n8,
      if_neg n9, if_neg n10, if_neg n11, if_neg n12, if_neg n13, if_neg n14, if_neg n15,
      if_neg n16, if_neg n17, if_neg n18, if_neg n19, if_neg n20, readExact, if_pos hlen]

/-- Witness for C7: a name index resolving to an Integer constant fails
with the malformed-attribute error, and the unknown name My with body
bytes de ad be ef captures exactly two declared bytes into Misc. -/
theorem C7_attribute_name_and_misc_witness :
    Attribute.readOne (ConstantPool.mk [.integer 7] []) 1 (encU16 1 ++ encU32 0 ++ [])
        = .error .attributeNameNotUtf8 ∧
    Attribute.readOne (ConstantPool.mk [.utf8 [77, 121]] []) 1
        (encU16 1 ++ encU32 2 ++ [222, 173, 190, 239])
        = .ok (.misc 1 [222, 173], [190, 239]) := by
  constructor
  · exact C7_attribute_name_and_misc.1 (ConstantPool.mk [.integer 7] []) 0 1 0 []
      (.integer 7) rfl (fun b h => Constant.noConfusion h)
  · exact C7_attribute_name_and_misc.2 (ConstantPool.mk [.utf8 [77, 121]] []) 0 1 2
      [222, 173, 190, 239] [77, 121] rfl (by decide) (by decide)

-- ============================================================================
-- CLAIM C9
-- ============================================================================

theorem exists_testBit_of_ne_zero {x : Nat} (h : x ≠ 0) : ∃ k, x.testBit k = true :=
  Nat.ne_zero_implies_bit_true h

/-- Characterisation of the bitflags from_bits pattern used by every
access-flag scope: on a u16 word it yields none exactly when some bit set
in the word is missing from the mask. -/
theorem fromBits_none_iff (mask w : Nat) (hm : mask < 65536) (hw : w < 65536) :
    ((if w &&& (0xFFFF ^^^ mask) = 0 then (some w : Option Nat) else none) = none) ↔
      ∃ k, w.testBit k = true ∧ mask.testBit k = false := by
  have hffff : (0xFFFF : Nat) = 2 ^ 16 - 1 := by norm_num
  constructor
  · intro h
    by_cases hc : w &&& (0xFFFF ^^^ mask) = 0
    · rw [if_pos hc] at h
      cases h
    · obtain ⟨k, hk⟩ := exists_testBit_of_ne_zero hc
      rw [Nat.testBit_land] at hk
      have hwk : w.testBit k = true := by
        cases hwb : w.testBit k <;> simp [hwb] at hk ⊢
      have hxork : (0xFFFF ^^^ mask).testBit k = true := by
        cases hxb : (0xFFFF ^^^ mask).testBit k <;> simp [hxb] at hk ⊢
      have hk16 : k < 16 := by
        by_contra hge
        have h1 : (0xFFFF : Nat).testBit k = false :=
          Nat.testBit_lt_two_pow (by calc (0xFFFF : Nat) < 2 ^ 16 := by norm_num
                                        _ ≤ 2 ^ k := Nat.pow_le_pow_right (by omega) (by omega))
        have h2 : mask.testBit k = false :=
          Nat.testBit_lt_two_pow (by calc mask < 65536 := hm
                                        _ = 2 ^ 16 := by norm_num
                                        _ ≤ 2 ^ k := Nat.pow_le_pow_right (by omega) (by omega))
        rw [Nat.testBit_xor, h1, h2] at hxork
        cases hxork
      have hmk : mask.testBit k = false := by
        rw [Nat.testBit_xor, hffff, Nat.testBit_two_pow_sub_one] at hxork
        cases hmb : mask.testBit k
        · rfl
        · rw [hmb, decide_eq_true hk16] at hxork
          exact absurd hxork (by decide)
      exact ⟨k, hwk, hmk⟩
  · rintro ⟨k, hwk, hmk⟩
    have hk16 : k < 16 := by
      by_contra hge
      have : w.testBit k = false :=
        Nat.testBit_lt_two_pow (by calc w < 65536 := hw
                                      _ = 2 ^ 16 := by norm_num
                                      _ ≤ 2 ^ k := Nat.pow_le_pow_right (by omega) (by omega))
      rw [this] at hwk
      cases hwk
    have hxork : (0xFFFF ^^^ mask).testBit k = true := by
      rw [Nat.testBit_xor, hffff, Nat.testBit_two_pow_sub_one, hmk]
      simp [hk16]
    have hne : w &&& (0xFFFF ^^^ mask) ≠ 0 := by
      intro h0
      have := congrArg (fun x => Nat.testBit x k) h0
      simp only [Nat.testBit_land, Nat.zero_testBit, hwk, hxork, Bool.true_and] at this
      cases this
    rw [if_neg hne]

/-- Claim C9: for every u16 word and every scope (class, field, method,
inner class), from_bits fails exactly when the word has a bit set outside
the scope's recognised mask, with the masks as enumerated in the
specification; a failing field, method or inner-class word makes the
corresponding reader fail with the invalid-access-flags error. -/
theorem C9_access_flag_masks (w : Nat) (hw : w < 65536) :
    (ClassAccessFlags.fromBits w = none ↔
        ∃ k, w.testBit k = true ∧ classAccessMask.testBit k = false)
    ∧ (FieldAccessFlags.fromBits w = none ↔
        ∃ k, w.testBit k = true ∧ fieldAccessMask.testBit k = false)
    ∧ (MethodAccessFlags.fromBits w = none ↔
        ∃ k, w.testBit k = true ∧ methodAccessMask.testBit k = false)
    ∧ (InnerClassAccessFlags.fromBits w = none ↔
        ∃ k, w.testBit k = true ∧ innerClassAccessMask.testBit k = false)
    ∧ (∀ (pool : ConstantPool) (fuel : Nat) (rest : Bytes),
        FieldAccessFlags.fromBits w = none →
        FieldInfo.readOne pool fuel (encU16 w ++ rest) = .error .invalidFieldAccessFlags)
    ∧ (∀ (pool : ConstantPool) (fuel : Nat) (rest : Bytes),
        MethodAccessFlags.fromBits w = none →
        MethodInfo.readOne pool fuel (encU16 w ++ rest) = .error .invalidMethodAccessFlags)
    ∧ (∀ (a b c : Nat) (rest : Bytes),
        InnerClassAccessFlags.fromBits w = none →
        InnerClassAttribute.readOne (encU16 a ++ encU16 b ++ encU16 c ++ encU16 w ++ rest)
          = .error .invalidInnerClassAccessFlags) := by
  refine ⟨?_, ?_, ?_, ?_, ?_, ?_, ?_⟩
  · exact fromBits_none_iff classAccessMask w (by decide) hw
  · exact fromBits_none_iff fieldAccessMask w (by decide) hw
  · exact fromBits_none_iff methodAccessMask w (by decide) hw
  · exact fromBits_none_iff innerClassAccessMask w (by decide) hw
  · intro pool fuel rest hnone
    have h16 : readU16 (encU16 w ++ rest) = .ok (w, rest) := readU16_enc w rest
    simp only [FieldInfo.readOne, bind_apply, h16, hnone]
    rfl
  · intro pool fuel rest hnone
    have h16 : readU16 (encU16 w ++ rest) = .ok (w, rest) := readU16_enc w rest
    simp only [MethodInfo.readOne, bind_apply, h16, hnone]
    rfl
  · intro a b c rest hnone
    have h16a : readU16 (encU16 a ++ encU16 b ++ encU16 c ++ encU16 w ++ rest)
        = .ok (a, encU16 b ++ encU16 c ++ encU16 w ++ rest) :=
      readU16_enc a (encU16 b ++ encU16 c ++ encU16 w ++ rest)
    have h16b : readU16 (encU16 b ++ encU16 c ++ encU16 w ++ rest)
        = .ok (b, encU16 c ++ encU16 w ++ rest) :=
      readU16_enc b (encU16 c ++ encU16 w ++ rest)
    have h16c : readU16 (encU16 c ++ encU16 w ++ rest) = .ok (c, encU16 w ++ rest) :=
      readU16_enc c (encU16 w ++ rest)
    have h16w : readU16 (encU16 w ++ rest) = .ok (w, rest) := readU16_enc w rest
    simp only [InnerClassAttribute.readOne, bind_apply, h16a, h16b, h16c, h16w, hnone]
    rfl

/-- Witness for C9 at the word with only bit 15 set, which lies outside
all four masks. -/
theorem C9_access_flag_masks_witness :
    ClassAccessFlags.fromBits 0x8000 = none ∧
    FieldInfo.readOne (ConstantPool.mk [] []) 0 (encU16 0x8000 ++ [])
      = .error .invalidFieldAccessFlags := by
  have h := C9_access_flag_masks 0x8000 (by decide)
  exact ⟨h.1.mpr ⟨15, by decide, by decide⟩,
    h.2.2.2.2.1 (ConstantPool.mk [] []) 0 []
      (h.2.1.mpr ⟨15, by decide, by decide⟩)⟩

-- ============================================================================
-- CLAIM C8
-- ============================================================================

/-- A reader never fails with the bad-magic error.  The magic error is
constructed at exactly one place in the source (the magic check at the
top of Class::read); these lemmas establish that every reader the rest of
the parse is built from preserves that. -/
def NotBadMagic (p : P α) : Prop := ∀ bs e, p bs = .error e → e ≠ Err.badMagic

theorem notBM_bind {p : P α} {f : α → P β} (hp : NotBadMagic p)
    (hf : ∀ a, NotBadMagic (f a)) : NotBadMagic (p >>= f) := by
  intro bs e h
  cases hap : p bs with
  | error e1 =>
    simp only [bind_apply, hap] at h
    injection h with h
    exact h ▸ hp bs e1 hap
  | ok val =>
    obtain ⟨a, r⟩ := val
    simp only [bind_apply, hap] at h
    exact hf a r e h

theorem notBM_pure (a : α) : NotBadMagic (pure a : P α) := by
  intro bs e h
  simp [pure_apply] at h

theorem notBM_pfail {e0 : Err} (h0 : e0 ≠ Err.badMagic) : NotBadMagic (pfail e0 : P α) := by
  intro bs e h
  rw [pfail_apply] at h
  injection h with h
  exact h ▸ h0

theorem notBM_ite {c : Prop} [Decidable c] {p q : P α} (hp : NotBadMagic p)
    (hq : NotBadMagic q) : NotBadMagic (if c then p else q) := by
  by_cases hc : c
  · rw [if_pos hc]; exact hp
  · rw [if_neg hc]; exact hq

theorem notBM_readU8 : NotBadMagic readU8 := by
  intro bs e h
  cases bs with
  | nil =>
    simp only [readU8] at h
    injection h with h
    subst h
    decide
  | cons b rest => simp [readU8] at h

theorem notBM_readU16 : NotBadMagic readU16 :=
  notBM_bind notBM_readU8 fun _ => notBM_bind notBM_readU8 fun _ => notBM_pure _

theorem notBM_readU32 : NotBadMagic readU32 :=
  notBM_bind notBM_readU16 fun _ => notBM_bind notBM_readU16 fun _ => notBM_pure _

theorem notBM_readU64 : NotBadMagic readU64 :=
  notBM_bind notBM_readU32 fun _ => notBM_bind notBM_readU32 fun _ => notBM_pure _

theorem notBM_readExact (n : Nat) : NotBadMagic (readExact n) := by
  intro bs e h
  unfold readExact at h
  split at h
  · exact absurd h (by simp)
  · injection h with h
    subst h
    decide

theorem notBM_readN {p : P α} (hp : NotBadMagic p) : ∀ n, NotBadMagic (readN p n) := by
  intro n
  induction n with
  | zero => exact notBM_pure _
  | succ n ih => exact notBM_bind hp fun _ => notBM_bind ih fun _ => notBM_pure _

theorem notBM_readCounted {p : P α} (hp : NotBadMagic p) : NotBadMagic (readCounted p) :=
  notBM_bind notBM_readU16 fun n => notBM_readN hp n

theorem notBM_readCounted8 {p : P α} (hp : NotBadMagic p) : NotBadMagic (readCounted8 p) :=
  notBM_bind notBM_readU8 fun n => notBM_readN hp n

theorem notBM_constant_readOne : NotBadMagic Constant.readOne := by
  unfold Constant.readOne
  refine notBM_bind notBM_readU8 fun tag => ?_
  intro bs e h
  split at h
  all_goals first
    | exact notBM_bind notBM_readU16
        (fun _ => notBM_bind (notBM_readExact _) fun _ => notBM_pure _) bs e h
    | exact notBM_bind notBM_readU32 (fun _ => notBM_pure _) bs e h
    | exact notBM_bind notBM_readU64 (fun _ => notBM_pure _) bs e h
    | exact notBM_bind notBM_readU16 (fun _ => notBM_pure _) bs e h
    | exact notBM_bind notBM_readU16
        (fun _ => notBM_bind notBM_readU16 fun _ => notBM_pure _) bs e h
    | exact notBM_bind notBM_readU8
        (fun _ => notBM_bind notBM_readU16 fun _ => notBM_pure _) bs e h
    | exact notBM_pfail (by decide) bs e h

theorem notBM_readConstantsLoop (count : Nat) :
    ∀ fuel idx, NotBadMagic (readConstantsLoop count fuel idx) := by
  intro fuel
  induction fuel with
  | zero =>
    intro idx bs e h
    unfold readConstantsLoop at h
    split at h
    · injection h with h
      subst h
      decide
    · exact Except.noConfusion h
  | succ fuel ih =>
    intro idx bs e h
    unfold readConstantsLoop at h
    split at h
    · exact notBM_bind notBM_constant_readOne
        (fun c => notBM_bind (ih _) fun _ => notBM_pure _) bs e h
    · exact Except.noConfusion h

theorem notBM_constantPool_readOne : NotBadMagic ConstantPool.readOne := by
  unfold ConstantPool.readOne
  exact notBM_bind notBM_readU16 fun count =>
    notBM_bind (notBM_readConstantsLoop count count 1) fun _ => notBM_pure _

theorem notBM_vti : NotBadMagic VerificationType.readOne := by
  unfold VerificationType.readOne
  refine notBM_bind notBM_readU8 fun tag => ?_
  intro bs e h
  split at h
  all_goals first
    | exact notBM_pure _ bs e h
    | exact notBM_bind notBM_readU16 (fun _ => notBM_pure _) bs e h
    | exact notBM_pfail (by decide) bs e h

theorem notBM_stackMapFrame : NotBadMagic StackMapTableAttribute.readOne := by
  unfold StackMapTableAttribute.readOne
  refine notBM_bind notBM_readU8 fun t => ?_
  refine notBM_ite (notBM_pure _) ?_
  refine notBM_ite (notBM_bind notBM_vti fun _ => notBM_pure _) ?_
  refine notBM_ite (notBM_pfail (fun hc => Err.noConfusion hc)) ?_
  refine notBM_ite
    (notBM_bind notBM_readU16 fun _ => notBM_bind notBM_vti fun _ => notBM_pure _) ?_
  refine notBM_ite (notBM_bind notBM_readU16 fun _ => notBM_pure _) ?_
  refine notBM_ite (notBM_bind notBM_readU16 fun _ => notBM_pure _) ?_
  refine notBM_ite (notBM_bind notBM_readU16 fun _ =>
    notBM_bind (notBM_readN notBM_vti _) fun _ => notBM_pure _) ?_
  refine notBM_ite (notBM_bind notBM_readU16 fun _ =>
    notBM_bind (notBM_readCounted notBM_vti) fun _ =>
      notBM_bind (notBM_readCounted notBM_vti) fun _ => notBM_pure _) ?_
  exact notBM_pfail (fun hc => Err.noConfusion hc)

theorem notBM_stackMapTableBody : NotBadMagic stackMapTableBody :=
  notBM_readCounted notBM_stackMapFrame

theorem notBM_constantValueAttr : NotBadMagic ConstantValueAttribute.readOne :=
  notBM_bind notBM_readU16 fun _ => notBM_pure _

theorem notBM_exceptionTableAttr : NotBadMagic ExceptionTableAttribute.readOne :=
  notBM_bind notBM_readU16 fun _ => notBM_bind notBM_readU16 fun _ =>
    notBM_bind notBM_readU16 fun _ => notBM_bind notBM_readU16 fun _ => notBM_pure _

theorem notBM_exceptionIndexAttr : NotBadMagic ExceptionIndexAttribute.readOne :=
  notBM_bind notBM_readU16 fun _ => notBM_pure _

theorem notBM_innerClassAttr : NotBadMagic InnerClassAttribute.readOne := by
  unfold InnerClassAttribute.readOne
  refine notBM_bind notBM_readU16 fun _ => ?_
  refine notBM_bind notBM_readU16 fun _ => ?_
  refine notBM_bind notBM_readU16 fun _ => ?_
  refine notBM_bind notBM_readU16 fun w => ?_
  cases InnerClassAccessFlags.fromBits w with
  | none => exact notBM_pfail (by decide)
  | some flags => exact notBM_pure _

theorem notBM_enclosingMethodAttr : NotBadMagic EnclosingMethodAttribute.readOne :=
  notBM_bind notBM_readU16 fun _ => notBM_bind notBM_readU16 fun _ => notBM_pure _

theorem notBM_signatureAttr : NotBadMagic SignatureAttribute.readOne :=
  notBM_bind notBM_readU16 fun _ => notBM_pure _

theorem notBM_sourceFileAttr : NotBadMagic SourceFileAttribute.readOne :=
  notBM_bind notBM_readU16 fun _ => notBM_pure _

theorem notBM_sourceDebugExtensionAttr (length : Nat) :
    NotBadMagic (SourceDebugExtensionAttribute.readOne length) :=
  notBM_bind (notBM_readExact length) fun _ => notBM_pure _

theorem notBM_lineNumberTableAttr : NotBadMagic LineNumberTableAttribute.readOne :=
  notBM_bind notBM_readU16 fun _ => notBM_bind notBM_readU16 fun _ => notBM_pure _

theorem notBM_localVariableTableAttr : NotBadMagic LocalVariableTableAttribute.readOne :=
  notBM_bind notBM_readU16 fun _ => notBM_bind notBM_readU16 fun _ =>
    notBM_bind notBM_readU16 fun _ => notBM_bind notBM_readU16 fun _ =>
      notBM_bind notBM_readU16 fun _ => notBM_pure _

theorem notBM_localVariableTypeTableAttr : NotBadMagic LocalVariableTypeTableAttribute.readOne :=
  notBM_bind notBM_readU16 fun _ => notBM_bind notBM_readU16 fun _ =>
    notBM_bind notBM_readU16 fun _ => notBM_bind notBM_readU16 fun _ =>
      notBM_bind notBM_readU16 fun _ => notBM_pure _

theorem notBM_bootstrapMethodAttr : NotBadMagic BootstrapMethodAttribute.readOne :=
  notBM_bind notBM_readU16 fun _ => notBM_bind notBM_readU16 fun n =>
    notBM_bind (notBM_readN notBM_readU16 n) fun _ => notBM_pure _

theorem notBM_elementValue :
    ∀ fuel, NotBadMagic (ElementValue.readOne fuel) ∧
      NotBadMagic (ElementValuePair.readOne fuel) ∧
      NotBadMagic (AnnotationAttribute.readOne fuel) := by
  intro fuel
  induction fuel with
  | zero =>
    exact ⟨notBM_pfail (by decide), notBM_pfail (by decide), notBM_pfail (by decide)⟩
  | succ fuel ih =>
    obtain ⟨ihe, ihp, iha⟩ := ih
    refine ⟨?_, ?_, ?_⟩
    · show NotBadMagic (ElementValue.readOne (fuel + 1))
      intro bs e h
      simp only [ElementValue.readOne] at h
      refine notBM_bind notBM_readU8 (fun tag => ?_) bs e h
      refine notBM_ite (notBM_bind notBM_readU16 fun _ => notBM_pure _) ?_
      refine notBM_ite
        (notBM_bind notBM_readU16 fun _ => notBM_bind notBM_readU16 fun _ => notBM_pure _) ?_
      refine notBM_ite (notBM_bind notBM_readU16 fun _ => notBM_pure _) ?_
      refine notBM_ite (notBM_bind iha fun _ => notBM_pure _) ?_
      refine notBM_ite (notBM_bind (notBM_readCounted ihe) fun _ => notBM_pure _) ?_
      exact notBM_pfail (by decide)
    · show NotBadMagic (ElementValuePair.readOne (fuel + 1))
      intro bs e h
      simp only [ElementValuePair.readOne] at h
      exact notBM_bind notBM_readU16 (fun _ => notBM_bind ihe fun _ => notBM_pure _) bs e h
    · show NotBadMagic (AnnotationAttribute.readOne (fuel + 1))
      intro bs e h
      simp only [AnnotationAttribute.readOne] at h
      exact notBM_bind notBM_readU16
        (fun _ => notBM_bind (notBM_readCounted ihp) fun _ => notBM_pure _) bs e h

theorem notBM_parameterAnnotationAttr (fuel : Nat) :
    NotBadMagic (ParameterAnnotationAttribute.readOne fuel) :=
  notBM_bind (notBM_readCounted (notBM_elementValue fuel).2.2) fun _ => notBM_pure _

theorem notBM_nameMatch (pool : ConstantPool) (ni : Nat) :
    NotBadMagic (match pool.index ni with
      | some (Constant.utf8 value) => (pure value : P Bytes)
      | some _ => pfail .attributeNameNotUtf8
      | none => pfail .indexPanicked) := by
  cases pool.index ni with
  | none => exact notBM_pfail (by decide)
  | some c => cases c <;> first
      | exact notBM_pure _
      | exact notBM_pfail (by decide)

theorem notBM_attribute (pool : ConstantPool) :
    ∀ fuel, NotBadMagic (Attribute.readOne pool fuel) := by
  intro fuel
  induction fuel with
  | zero => exact notBM_pfail (by decide)
  | succ fuel ih =>
    intro bs e h
    simp only [Attribute.readOne] at h
    refine notBM_bind notBM_readU16 (fun ni => ?_) bs e h
    refine notBM_bind notBM_readU32 fun L => ?_
    refine notBM_bind (notBM_nameMatch pool ni) fun nm => ?_
    refine notBM_ite (notBM_bind notBM_constantValueAttr fun _ => notBM_pure _) ?_
    refine notBM_ite (notBM_bind notBM_readU16 fun _ => notBM_bind notBM_readU16 fun _ =>
      notBM_bind notBM_readU32 fun _ => notBM_bind (notBM_readExact _) fun _ =>
        notBM_bind (notBM_readCounted notBM_exceptionTableAttr) fun _ =>
          notBM_bind (notBM_readCounted ih) fun _ => notBM_pure _) ?_
    refine notBM_ite (notBM_bind notBM_stackMapTableBody fun _ => notBM_pure _) ?_
    refine notBM_ite
      (notBM_bind (notBM_readCounted notBM_exceptionIndexAttr) fun _ => notBM_pure _) ?_
    refine notBM_ite
      (notBM_bind (notBM_readCounted notBM_innerClassAttr) fun _ => notBM_pure _) ?_
    refine notBM_ite (notBM_bind notBM_enclosingMethodAttr fun _ => notBM_pure _) ?_
    refine notBM_ite (notBM_pure _) ?_
    refine notBM_ite (notBM_bind notBM_signatureAttr fun _ => notBM_pure _) ?_
    refine notBM_ite (notBM_bind notBM_sourceFileAttr fun _ => notBM_pure _) ?_
    refine notBM_ite (notBM_bind (notBM_sourceDebugExtensionAttr _) fun _ => notBM_pure _) ?_
    refine notBM_ite
      (notBM_bind (notBM_readCounted notBM_lineNumberTableAttr) fun _ => notBM_pure _) ?_
    refine notBM_ite
      (notBM_bind (notBM_readCounted notBM_localVariableTableAttr) fun _ => notBM_pure _) ?_
    refine notBM_ite
      (notBM_bind (notBM_readCounted notBM_localVariableTypeTableAttr) fun _ => notBM_pure _) ?_
    refine notBM_ite (notBM_pure _) ?_
    refine notBM_ite
      (notBM_bind (notBM_readCounted (notBM_elementValue fuel).2.2) fun _ => notBM_pure _) ?_
    refine notBM_ite
      (notBM_bind (notBM_readCounted (notBM_elementValue fuel).2.2) fun _ => notBM_pure _) ?_
    refine notBM_ite
      (notBM_bind (notBM_readCounted8 (notBM_parameterAnnotationAttr fuel))
        fun _ => notBM_pure _) ?_
    refine notBM_ite
      (notBM_bind (notBM_readCounted8 (notBM_parameterAnnotationAttr fuel))
        fun _ => notBM_pure _) ?_
    refine notBM_ite
      (notBM_bind (notBM_elementValue fuel).1 fun _ => notBM_pure _) ?_
    refine notBM_ite
      (notBM_bind (notBM_readCounted notBM_bootstrapMethodAttr) fun _ => notBM_pure _) ?_
    exact notBM_bind (notBM_readExact _) fun _ => notBM_pure _

theorem notBM_interface : NotBadMagic Interface.readOne :=
  notBM_bind notBM_readU16 fun _ => notBM_pure _

theorem notBM_fieldInfo (pool : ConstantPool) (fuel : Nat) :
    NotBadMagic (FieldInfo.readOne pool fuel) := by
  unfold FieldInfo.readOne
  refine notBM_bind notBM_readU16 fun w => ?_
  refine notBM_bind ?_ fun _ => notBM_bind notBM_readU16 fun _ =>
    notBM_bind notBM_readU16 fun _ =>
      notBM_bind (notBM_readCounted (notBM_attribute pool fuel)) fun _ => notBM_pure _
  cases FieldAccessFlags.fromBits w with
  | none => exact notBM_pfail (by decide)
  | some flags => exact notBM_pure _

theorem notBM_methodInfo (pool : ConstantPool) (fuel : Nat) :
    NotBadMagic (MethodInfo.readOne pool fuel) := by
  unfold MethodInfo.readOne
  refine notBM_bind notBM_readU16 fun w => ?_
  refine notBM_bind ?_ fun _ => notBM_bind notBM_readU16 fun _ =>
    notBM_bind notBM_readU16 fun _ =>
      notBM_bind (notBM_readCounted (notBM_attribute pool fuel)) fun _ => notBM_pure _
  cases MethodAccessFlags.fromBits w with
  | none => exact notBM_pfail (by decide)
  | some flags => exact notBM_pure _

theorem notBM_classReadBody (fuel : Nat) : NotBadMagic (Class.readBody fuel) := by
  unfold Class.readBody
  refine notBM_bind notBM_readU16 fun _ => ?_
  refine notBM_bind notBM_readU16 fun _ => ?_
  refine notBM_bind notBM_constantPool_readOne fun pool => ?_
  refine notBM_bind notBM_readU16 fun w => ?_
  refine notBM_bind ?_ fun _ => ?_
  · cases ClassAccessFlags.fromBits w with
    | none => exact notBM_pfail (by decide)
    | some flags => exact notBM_pure _
  · refine notBM_bind notBM_readU16 fun _ => ?_
    refine notBM_bind notBM_readU16 fun _ => ?_
    refine notBM_bind (notBM_readCounted notBM_interface) fun _ => ?_
    refine notBM_bind (notBM_readCounted (notBM_fieldInfo pool fuel)) fun _ => ?_
    refine notBM_bind (notBM_readCounted (notBM_methodInfo pool fuel)) fun _ => ?_
    refine notBM_bind (notBM_readCounted (notBM_attribute pool fuel)) fun _ => ?_
    exact notBM_ite (notBM_pfail (by decide)) (notBM_pure _)

/-- Claim C8: with at least four bytes available, Class::read fails with
the bad-magic error exactly when the first four bytes read as a
big-endian u32 differ from CAFEBABE, and on a matching magic the parse
continues with the version fields (the remainder of the class parse,
which can never produce the bad-magic error). -/
theorem C8_bad_magic_iff (fuel b0 b1 b2 b3 : Nat) (rest : Bytes) :
    (Class.read fuel (b0 :: b1 :: b2 :: b3 :: rest) = .error .badMagic ↔
      (b0 * 256 + b1) * 65536 + (b2 * 256 + b3) ≠ 0xCAFEBABE)
    ∧ ((b0 * 256 + b1) * 65536 + (b2 * 256 + b3) = 0xCAFEBABE →
      Class.read fuel (b0 :: b1 :: b2 :: b3 :: rest) = Class.readBody fuel rest) := by
  have hm : readU32 (b0 :: b1 :: b2 :: b3 :: rest)
      = .ok ((b0 * 256 + b1) * 65536 + (b2 * 256 + b3), rest) := rfl
  have hstep : Class.read fuel (b0 :: b1 :: b2 :: b3 :: rest)
      = if (b0 * 256 + b1) * 65536 + (b2 * 256 + b3) ≠ CLASS_MAGIC then .error .badMagic
        else Class.readBody fuel rest := by
    simp only [Class.read, bind_apply, hm]
    rw [apply_ite (fun p : P Class => p rest)]
    rfl
  have hmagic : CLASS_MAGIC = 0xCAFEBABE := rfl
  constructor
  · constructor
    · intro h heq
      rw [hstep, if_neg (not_not_intro (hmagic ▸ heq))] at h
      exact absurd rfl (notBM_classReadBody fuel rest Err.badMagic h)
    · intro hne
      rw [hstep, if_pos (hmagic ▸ hne)]
  · intro heq
    rw [hstep, if_neg (not_not_intro (hmagic ▸ heq))]

/-- Witness for C8: the input beginning with the bytes DEADBEEF yields
the bad-magic error. -/
theorem C8_bad_magic_iff_witness :
    Class.read 3 [0xDE, 0xAD, 0xBE, 0xEF] = .error .badMagic :=
  (C8_bad_magic_iff 3 0xDE 0xAD 0xBE 0xEF []).1.mpr (by decide)

end Bvm
